import Mathlib

/-!
Shallow embedding of the image-serving-service repository
(`src/services/image_hosting.py`, `src/services/image_fetcher.py`,
`src/api/endpoints/images.py`, `src/config.py`) in Lean 4, together with
theorems settling the specification claims.

Conventions:
* Byte strings are `List Nat` (each element a byte value).
* The external PIL codec (`PIL.Image.open` / `Image.save`) is modelled by an
  executable stand-in codec `pilDecode` / `pilEncode`: an image decodes from a
  seven-byte record starting with the JPEG magic `FF D8` carrying width, height
  (two bytes each, so dimensions below 65536, as in real JPEG) and a colour-mode
  tag.  Bytes not of this shape are undecodable, matching the role of
  non-image bytes in the source.  All arithmetic on dimensions is taken
  verbatim from the Python source.
* Python `int(h * m / w)` on nonnegative ints is truncation; it is modelled by
  `Nat` division (exact for all realistic dimensions).
-/

set_option autoImplicit false

namespace ImageService

/-- Byte strings. -/
abbrev ByteSeq := List Nat

/-- The closed set of image formats recognised by the service
(`FORMAT_TO_EXT` keys in `image_hosting.py`). -/
inductive ImgFormat
  | png
  | jpeg
  | gif
  | webp
deriving DecidableEq

/-- PIL colour modes relevant to the source (`img.mode in ("RGBA", "P")`
check plus the RGB target and a representative other mode). -/
inductive PILMode
  | RGB
  | RGBA
  | P
  | L
deriving DecidableEq

/-- A decoded PIL image: dimensions and colour mode. -/
structure PILImage where
  width : Nat
  height : Nat
  mode : PILMode
deriving DecidableEq

def modeTag : PILMode → Nat
  | .RGB => 0
  | .RGBA => 1
  | .P => 2
  | .L => 3

def modeOfTag : Nat → Option PILMode
  | 0 => some .RGB
  | 1 => some .RGBA
  | 2 => some .P
  | 3 => some .L
  | _ => none

/-- Executable stand-in for the external PIL encoder (`img.save`): a
seven-byte record `FF D8 w_hi w_lo h_hi h_lo mode`. -/
def pilEncode (img : PILImage) : ByteSeq :=
  [0xff, 0xd8, img.width / 256, img.width % 256,
   img.height / 256, img.height % 256, modeTag img.mode]

/-- Executable stand-in for the external PIL decoder (`Image.open`); returns
`none` exactly on bytes the codec cannot decode. -/
def pilDecode (b : ByteSeq) : Option PILImage :=
  match b with
  | [m0, m1, w1, w2, h1, h2, t] =>
      if m0 = 0xff ∧ m1 = 0xd8 then
        (modeOfTag t).map fun mo => ⟨w1 * 256 + w2, h1 * 256 + h2, mo⟩
      else none
  | _ => none

namespace ImageHosting

/-- `image_hosting._detect_image_format`: magic-byte sniffing with a
permissive jpeg default (lines 38-47). -/
def detect_image_format (b : ByteSeq) : ImgFormat :=
  if b.take 8 = [0x89, 0x50, 0x4e, 0x47, 0x0d, 0x0a, 0x1a, 0x0a] then .png
  else if b.take 2 = [0xff, 0xd8] then .jpeg
  else if b.take 6 = [0x47, 0x49, 0x46, 0x38, 0x37, 0x61]
      ∨ b.take 6 = [0x47, 0x49, 0x46, 0x38, 0x39, 0x61] then .gif
  else if b.take 4 = [0x52, 0x49, 0x46, 0x46]
      ∧ (b.drop 8).take 4 = [0x57, 0x45, 0x42, 0x50] then .webp
  else .jpeg

/-- `FORMAT_TO_EXT` (total on the closed format set; the `.get(..., "jpg")`
default is unreachable). -/
def formatToExt : ImgFormat → String
  | .jpeg => "jpg"
  | .png => "png"
  | .gif => "gif"
  | .webp => "webp"

/-- `FORMAT_TO_MEDIA_TYPE` lookup keyed by detected format tag. -/
def formatToMediaType : ImgFormat → String
  | .jpeg => "image/jpeg"
  | .png => "image/png"
  | .gif => "image/gif"
  | .webp => "image/webp"

/-- `FORMAT_TO_MEDIA_TYPE.get(ext, "image/jpeg")` keyed by file extension,
as used by `get_image_path`. -/
def extToMediaType (ext : String) : String :=
  if ext = "jpg" then "image/jpeg"
  else if ext = "jpeg" then "image/jpeg"
  else if ext = "png" then "image/png"
  else if ext = "gif" then "image/gif"
  else if ext = "webp" then "image/webp"
  else "image/jpeg"

/-- `image_hosting.detect_mime_type`. -/
def detect_mime_type (b : ByteSeq) : String :=
  formatToMediaType (detect_image_format b)

/-- The dimension arithmetic of `_resize_image` (image_hosting.py lines 61-68,
identical in image_fetcher.py lines 61-68): scale the longer side to
`maxSize`, the shorter side by truncating integer arithmetic; no-op when both
dimensions are within the bound. -/
def resizeDims (maxSize w h : Nat) : Nat × Nat :=
  if w > maxSize ∨ h > maxSize then
    if w > h then (maxSize, h * maxSize / w)
    else (w * maxSize / h, maxSize)
  else (w, h)

/-- Colour-mode normalisation (`if img.mode in ("RGBA", "P"): img = img.convert("RGB")`). -/
def convertMode (img : PILImage) : PILImage :=
  if img.mode = .RGBA ∨ img.mode = .P then { img with mode := .RGB } else img

/-- The image-level effect of `_resize_image`: convert mode, then rescale
dimensions. -/
def resizedImage (img : PILImage) (maxSize : Nat) : PILImage :=
  let img1 := convertMode img
  let wh := resizeDims maxSize img1.width img1.height
  ⟨wh.1, wh.2, img1.mode⟩

/-- `image_hosting._resize_image` (lines 56-71): decode, convert mode, resize,
re-encode as JPEG; any exception (modelled: decode failure) propagates, so the
result is `none`. -/
def resize_image (b : ByteSeq) (maxSize : Nat) : Option (ByteSeq × ImgFormat) :=
  match pilDecode b with
  | none => none
  | some img => some (pilEncode (resizedImage img maxSize), .jpeg)

end ImageHosting

/-- An HTTP response as seen by `image_fetcher.fetch_image`: status code and
fully materialised body (`response.content`). -/
structure HttpResponse where
  status : Nat
  content : ByteSeq
deriving DecidableEq

namespace ImageFetcher

/-- `image_fetcher.resize_image` (lines 55-73): same pipeline as
`_resize_image` but lenient — on any exception the original bytes are
returned unmodified. -/
def resize_image (b : ByteSeq) (maxSize : Nat) : ByteSeq :=
  match pilDecode b with
  | none => b
  | some img => pilEncode (ImageHosting.resizedImage img maxSize)

/-- `image_fetcher.fetch_image` (lines 76-84): the response (or `none` for a
network error), `raise_for_status` (non-2xx raises), then the lenient resize;
every exception is caught and yields `none`. -/
def fetch_image (resp : Option HttpResponse) (maxFetchSize : Nat) : Option ByteSeq :=
  match resp with
  | none => none
  | some r =>
      if 200 ≤ r.status ∧ r.status ≤ 299 then
        some (resize_image r.content maxFetchSize)
      else none

/-- The number of response-body bytes read by a fetch operation:
`fetch_image` consumes `response.content`, which materialises the entire
body, regardless of status or of any configured limit. -/
def bytesRead (resp : Option HttpResponse) : Nat :=
  match resp with
  | none => 0
  | some r => r.content.length

end ImageFetcher

/-- `src/config.py Settings`: the full configuration surface, with its
defaults.  Note: the field `max_fetch_bytes`, which `tests/test_config.py`
asserts to equal `10485760`, is absent from the source class. -/
structure Settings where
  app_name : String := "image-serving-service"
  debug : Bool := false
  host : String := "0.0.0.0"
  port : Nat := 8000
  log_level : String := "info"
  cors_origins : List String := ["*"]
  metrics_enabled : Bool := true
  uploads_path : String := "/app/uploads"
  max_upload_size : Nat := 1200
  max_fetch_size : Nat := 800
  fetch_timeout_tenths : Nat := 150
  proxy_strategy : String := "round-robin"
  fetch_max_retries : Nat := 3
  proxy_blacklist_threshold : Nat := 3
  proxy_blacklist_ttl_tenths : Nat := 3000

def settings : Settings := {}

/-- The download ceiling that the repository's own test suite
(`tests/test_config.py::test_max_fetch_bytes`) expects
`settings.max_fetch_bytes` to hold; no such field exists in `Settings`. -/
def testExpectedMaxFetchBytes : Nat := 10485760

/-! ### Base64 (models Python's `base64.b64encode` / `base64.b64decode`) -/

def b64CharVal (c : Char) : Option Nat :=
  if 'A' ≤ c ∧ c ≤ 'Z' then some (c.toNat - 65)
  else if 'a' ≤ c ∧ c ≤ 'z' then some (c.toNat - 97 + 26)
  else if '0' ≤ c ∧ c ≤ '9' then some (c.toNat - 48 + 52)
  else if c = '+' then some 62
  else if c = '/' then some 63
  else none

def b64ValChar (n : Nat) : Char :=
  if n < 26 then Char.ofNat (65 + n)
  else if n < 52 then Char.ofNat (97 + (n - 26))
  else if n < 62 then Char.ofNat (48 + (n - 52))
  else if n = 62 then '+'
  else '/'

def b64encodeChars : ByteSeq → List Char
  | b1 :: b2 :: b3 :: rest =>
      let n := b1 * 65536 + b2 * 256 + b3
      b64ValChar (n / 262144) :: b64ValChar (n / 4096 % 64) ::
        b64ValChar (n / 64 % 64) :: b64ValChar (n % 64) :: b64encodeChars rest
  | [b1, b2] =>
      let n := b1 * 1024 + b2 * 4
      [b64ValChar (n / 4096), b64ValChar (n / 64 % 64), b64ValChar (n % 64), '=']
  | [b1] =>
      let n := b1 * 16
      [b64ValChar (n / 64), b64ValChar (n % 64), '=', '=']
  | [] => []

/-- Models `base64.b64encode(...).decode()`. -/
def b64encode (b : ByteSeq) : String := String.mk (b64encodeChars b)

def b64decodeQuads : List Char → Option ByteSeq
  | [] => some []
  | c1 :: c2 :: c3 :: c4 :: rest =>
      match b64CharVal c1, b64CharVal c2 with
      | some v1, some v2 =>
          if c3 = '=' then
            if c4 = '=' ∧ rest = [] then some [v1 * 4 + v2 / 16] else none
          else
            match b64CharVal c3 with
            | some v3 =>
                if c4 = '=' then
                  if rest = [] then some [v1 * 4 + v2 / 16, v2 % 16 * 16 + v3 / 4]
                  else none
                else
                  match b64CharVal c4 with
                  | some v4 =>
                      (b64decodeQuads rest).map
                        (fun bs => (v1 * 4 + v2 / 16) :: (v2 % 16 * 16 + v3 / 4) ::
                          (v3 % 4 * 64 + v4) :: bs)
                  | none => none
            | none => none
      | _, _ => none
  | _ => none

/-- Models `base64.b64decode`: non-alphabet characters are discarded, then
four-character groups are decoded; malformed grouping or padding fails
(`none`). -/
def b64decode (s : String) : Option ByteSeq :=
  b64decodeQuads (s.data.filter fun c => (b64CharVal c).isSome || c = '=')

/-! ### String helpers (Python `in`, `split`, `rstrip`, `endswith`) -/

/-- Python's substring test `sub in s` on character lists. -/
def hasSubList (sub : List Char) : List Char → Bool
  | [] => sub.isEmpty
  | c :: rest => sub.isPrefixOf (c :: rest) || hasSubList sub rest

/-- Python's `sub in s` for strings. -/
def strContains (s sub : String) : Bool := hasSubList sub.data s.data

/-- The data-URL marker `";base64,"` used by `save_image`. -/
def b64Marker : List Char := [';', 'b', 'a', 's', 'e', '6', '4', ',']

/-- Python's `s.split(";base64,")` on character lists; the fuel argument
(initialised to the list length, an upper bound on the recursion depth)
keeps the recursion structural. -/
def splitB64MarkerAux : Nat → List Char → List (List Char)
  | _, [] => [[]]
  | 0, l => [l]
  | fuel + 1, c :: rest =>
      if b64Marker.isPrefixOf (c :: rest) then
        [] :: splitB64MarkerAux fuel ((c :: rest).drop 8)
      else
        match splitB64MarkerAux fuel rest with
        | [] => [[c]]
        | h :: t => (c :: h) :: t

/-- Python's `s.split(";base64,")`. -/
def splitB64Marker (l : List Char) : List (List Char) :=
  splitB64MarkerAux l.length l

/-- ASCII lowercasing of one character (Python `str.lower` on the ASCII
range relevant to schemes and hostnames). -/
def charLower (c : Char) : Char :=
  if 'A' ≤ c ∧ c ≤ 'Z' then Char.ofNat (c.toNat + 32) else c

/-- Python's `s.lower()`. -/
def strLower (s : String) : String := String.mk (s.data.map charLower)

/-- Splitting a character list on a separator character
(Python `s.split("/")` for the single-character separator). -/
def splitOnChar (sep : Char) : List Char → List (List Char)
  | [] => [[]]
  | c :: rest =>
      if c == sep then [] :: splitOnChar sep rest
      else
        match splitOnChar sep rest with
        | [] => [[c]]
        | h :: t => (c :: h) :: t

/-- Lines 80-81 of `image_hosting.py`: strip an optional
`data:<mime>;base64,` prefix (`base64_data.split(";base64,")[1]`). -/
def stripDataUrl (s : String) : String :=
  if strContains s (String.mk b64Marker) then
    String.mk (((splitB64Marker s.data).get? 1).getD [])
  else s

/-- Python's `s.rstrip("/")`. -/
def rstripSlash (s : String) : String :=
  String.mk (s.data.reverse.dropWhile (fun c => c == '/')).reverse

/-- Python's `name.endswith("." ++ ext)`. -/
def endsWithExt (name ext : String) : Bool :=
  ("." ++ ext).data.isSuffixOf name.data

/-! ### The filesystem under `IMAGES_DIR` -/

/-- The storage state below `IMAGES_DIR`: the set of existing namespace
directories and the files `(namespace, filename, content)` inside them. -/
structure FS where
  dirs : List String
  files : List (String × String × ByteSeq)
deriving DecidableEq

def FS.dirExists (fs : FS) (ns : String) : Bool := fs.dirs.contains ns

/-- `_ensure_namespace_dir` (`mkdir(parents=True, exist_ok=True)`). -/
def FS.ensureDir (fs : FS) (ns : String) : FS :=
  if fs.dirs.contains ns then fs else { fs with dirs := ns :: fs.dirs }

/-- `open(path, "wb")` followed by a complete `write`. -/
def FS.writeFile (fs : FS) (ns fname : String) (content : ByteSeq) : FS :=
  { fs with
    files := (ns, fname, content) ::
      fs.files.filter fun f => !(f.1 == ns && f.2.1 == fname) }

def FS.readFile (fs : FS) (ns fname : String) : Option ByteSeq :=
  (fs.files.find? fun f => f.1 == ns && f.2.1 == fname).map (fun f => f.2.2)

def FS.fileExists (fs : FS) (ns fname : String) : Bool :=
  (fs.readFile ns fname).isSome

/-- Outcome of the physical disk write: complete, or an exception raised
after `k` bytes reached the (already created) file. -/
inductive WriteOutcome
  | ok
  | failAfter (k : Nat)
deriving DecidableEq

namespace ImageHosting

/-- The extension preference order of `get_image_path` /
`delete_namespace_images`. -/
def knownExts : List String := ["jpg", "png", "gif", "webp"]

/-- `image_hosting.save_image` (lines 78-98).  The generated random id and
the disk-write outcome are passed explicitly.  Any failure (base64 decode,
normalize, write) is caught and yields `none`; a failing write still leaves
the opened, truncated file behind. -/
def save_image (fs : FS) (ns : String) (base64_data : String) (newId : String)
    (maxUploadSize : Nat) (wr : WriteOutcome) : Option String × FS :=
  match b64decode (stripDataUrl base64_data) with
  | none => (none, fs)
  | some bytes =>
      match resize_image bytes maxUploadSize with
      | none => (none, fs)
      | some rf =>
          let ext := formatToExt rf.2
          let fs1 := fs.ensureDir ns
          let fname := newId ++ "." ++ ext
          match wr with
          | .ok => (some newId, fs1.writeFile ns fname rf.1)
          | .failAfter k => (none, fs1.writeFile ns fname (rf.1.take k))

/-- Modelled from the spec: `image_hosting.save_image_bytes` is called by the
bulk proxy endpoint and exercised by `tests/services/test_image_hosting.py`,
but its definition is missing from the provided sources.  Per spec §4.4 the
raw-bytes entry point of `save` runs the payload through the Normalizer,
derives the extension from the resulting format, writes `namespace/id.ext`
and returns the ID; any decode/normalize/write failure returns failure. -/
def save_image_bytes (fs : FS) (ns : String) (bytes : ByteSeq) (newId : String)
    (maxSize : Nat) (wr : WriteOutcome) : Option String × FS :=
  match resize_image bytes maxSize with
  | none => (none, fs)
  | some rf =>
      let ext := formatToExt rf.2
      let fs1 := fs.ensureDir ns
      let fname := newId ++ "." ++ ext
      match wr with
      | .ok => (some newId, fs1.writeFile ns fname rf.1)
      | .failAfter k => (none, fs1.writeFile ns fname (rf.1.take k))

/-- `image_hosting.get_image_path` (lines 101-107): probe the namespace for
`id.<ext>` over the known extensions in order; result is the filename and its
media type. -/
def get_image_path (fs : FS) (ns imageId : String) : Option (String × String) :=
  knownExts.findSome? fun ext =>
    if fs.fileExists ns (imageId ++ "." ++ ext) then
      some (imageId ++ "." ++ ext, extToMediaType ext)
    else none

/-- `image_hosting.get_image_url` (lines 110-111). -/
def get_image_url (ns imageId baseUrl : String) : String :=
  rstripSlash baseUrl ++ "/images/" ++ ns ++ "/" ++ imageId

/-- One `glob(f"*.{ext}")`-and-unlink pass of `delete_namespace_images`:
returns the number of files removed and the remaining state. -/
def FS.deleteExt (fs : FS) (ns ext : String) : Nat × FS :=
  ((fs.files.filter fun f => f.1 == ns && endsWithExt f.2.1 ext).length,
   { fs with files := fs.files.filter fun f => !(f.1 == ns && endsWithExt f.2.1 ext) })

/-- `image_hosting.delete_namespace_images` (lines 114-132): nothing to do if
the directory does not exist; otherwise unlink every `*.{ext}` file for each
known extension, count the removals, then attempt `rmdir` ignoring failure
(it succeeds exactly when no file is left in the namespace). -/
def delete_namespace_images (fs : FS) (ns : String) : Nat × FS :=
  if !fs.dirExists ns then (0, fs)
  else
    let r := knownExts.foldl
      (fun acc ext =>
        let s := FS.deleteExt acc.2 ns ext
        (acc.1 + s.1, s.2))
      (0, fs)
    let fs1 := r.2
    let fs2 :=
      if (fs1.files.filter fun f => f.1 == ns).isEmpty then
        { fs1 with dirs := fs1.dirs.filter fun d => !(d == ns) }
      else fs1
    (r.1, fs2)

end ImageHosting

/-! ### URLs and the SSRF guard (`src/api/endpoints/images.py`)

`urllib.parse.urlparse` is external; a URL is modelled by its parsed
components.  `urlparse` lowercases the host, so `name` carries the hostname
as the guard sees it.  `ipaddress.ip_address(hostname)` succeeds exactly on
the IP-literal constructors and raises `ValueError` on `name`. -/

/-- A parsed hostname: an IPv4 literal (value below `2^32`), an IPv6 literal
(value below `2^128`), or an ordinary DNS name. -/
inductive Hostname
  | ip4 (addr : Nat)
  | ip6 (addr : Nat)
  | name (s : String)
deriving DecidableEq

/-- A URL as returned by `urlparse`. -/
structure UrlParts where
  scheme : String
  hostname : Option Hostname
  port : Option Nat
  path : String
deriving DecidableEq

/-- Membership of an address in a CIDR network of the given bit `width`. -/
def inNet (width addr net plen : Nat) : Bool :=
  addr / 2 ^ (width - plen) == net / 2 ^ (width - plen)

def ip4InAny (a : Nat) (nets : List (Nat × Nat)) : Bool :=
  nets.any fun p => inNet 32 a p.1 p.2

def ip6InAny (a : Nat) (nets : List (Nat × Nat)) : Bool :=
  nets.any fun p => inNet 128 a p.1 p.2

/-- CPython `ipaddress` IPv4 `_private_networks`. -/
def ip4PrivateNets : List (Nat × Nat) :=
  [(0x00000000, 8), (0x0A000000, 8), (0x7F000000, 8), (0xA9FE0000, 16),
   (0xAC100000, 12), (0xC0000000, 29), (0xC00000AA, 31), (0xC0000200, 24),
   (0xC0A80000, 16), (0xC6120000, 15), (0xC6336400, 24), (0xCB007100, 24),
   (0xF0000000, 4), (0xFFFFFFFF, 32)]

def ip4IsPrivate (a : Nat) : Bool := ip4InAny a ip4PrivateNets
def ip4IsLoopback (a : Nat) : Bool := inNet 32 a 0x7F000000 8
def ip4IsLinkLocal (a : Nat) : Bool := inNet 32 a 0xA9FE0000 16
def ip4IsReserved (a : Nat) : Bool := inNet 32 a 0xF0000000 4
def ip4IsMulticast (a : Nat) : Bool := inNet 32 a 0xE0000000 4
def ip4IsUnspecified (a : Nat) : Bool := a == 0

/-- CPython `ipaddress` IPv6 `_private_networks`. -/
def ip6PrivateNets : List (Nat × Nat) :=
  [(1, 128), (0, 128), (0xffff * 2 ^ 32, 96), (0x100 * 2 ^ 112, 64),
   (0x2001 * 2 ^ 112, 23), (0x2001 * 2 ^ 112 + 0x2 * 2 ^ 96, 48),
   (0x2001 * 2 ^ 112 + 0x10 * 2 ^ 96, 28),
   (0x2001 * 2 ^ 112 + 0xdb8 * 2 ^ 96, 32),
   (0xfc00 * 2 ^ 112, 7), (0xfe80 * 2 ^ 112, 10)]

/-- CPython `ipaddress` IPv6 `_reserved_networks`. -/
def ip6ReservedNets : List (Nat × Nat) :=
  [(0, 8), (0x100 * 2 ^ 112, 8), (0x200 * 2 ^ 112, 7), (0x400 * 2 ^ 112, 6),
   (0x800 * 2 ^ 112, 5), (0x1000 * 2 ^ 112, 4), (0x4000 * 2 ^ 112, 3),
   (0x6000 * 2 ^ 112, 3), (0x8000 * 2 ^ 112, 3), (0xA000 * 2 ^ 112, 3),
   (0xC000 * 2 ^ 112, 3), (0xE000 * 2 ^ 112, 4), (0xF000 * 2 ^ 112, 5),
   (0xF800 * 2 ^ 112, 6), (0xFE00 * 2 ^ 112, 9)]

def ip6IsPrivate (a : Nat) : Bool := ip6InAny a ip6PrivateNets
def ip6IsLoopback (a : Nat) : Bool := a == 1
def ip6IsLinkLocal (a : Nat) : Bool := inNet 128 a (0xfe80 * 2 ^ 112) 10
def ip6IsReserved (a : Nat) : Bool := ip6InAny a ip6ReservedNets
def ip6IsMulticast (a : Nat) : Bool := inNet 128 a (0xff00 * 2 ^ 112) 8
def ip6IsUnspecified (a : Nat) : Bool := a == 0

deriving instance DecidableEq for Except

namespace ImagesApi

/-- `AppError(status_code, detail)` from `src/core/exceptions.py`. -/
structure AppError where
  status : Nat
  detail : String
deriving DecidableEq

/-- `images.py _is_blocked_ip` (lines 35-40): an IP literal is blocked when it
is private, loopback, link-local, reserved, multicast or unspecified; a
hostname that is not an IP literal raises `ValueError` and is not blocked. -/
def is_blocked_ip : Hostname → Bool
  | .ip4 a => ip4IsPrivate a || ip4IsLoopback a || ip4IsLinkLocal a ||
      ip4IsReserved a || ip4IsMulticast a || ip4IsUnspecified a
  | .ip6 a => ip6IsPrivate a || ip6IsLoopback a || ip6IsLinkLocal a ||
      ip6IsReserved a || ip6IsMulticast a || ip6IsUnspecified a
  | .name _ => false

/-- Python truthiness of `parsed.hostname` (`None` and `""` are falsy). -/
def hostTruthy : Option Hostname → Bool
  | none => false
  | some (.name s) => !(s == "")
  | some _ => true

/-- `hostname == "localhost" or hostname.endswith(".localhost")`. -/
def hostIsLocalhostForm : Hostname → Bool
  | .name s => s == "localhost" || ".localhost".data.isSuffixOf s.data
  | _ => false

/-- `images.py _validate_fetch_url` (lines 43-54). -/
def validate_fetch_url (u : UrlParts) : Except AppError Unit :=
  let scheme := strLower u.scheme
  if !(scheme == "http" || scheme == "https") then
    .error ⟨400, "Invalid url"⟩
  else if !hostTruthy u.hostname then
    .error ⟨400, "Invalid url"⟩
  else
    match u.hostname with
    | none => .error ⟨400, "Invalid url"⟩
    | some h =>
        if hostIsLocalhostForm h then .error ⟨400, "Invalid url"⟩
        else if is_blocked_ip h then .error ⟨400, "Invalid url"⟩
        else .ok ()

/-- `images.py _validate_path_segment` reject condition (lines 30-32):
`not value or ".." in value or "/" in value`. -/
def segmentRejected (value : String) : Bool :=
  value == "" || strContains value ".." || strContains value "/"

/-- `_INTERNAL_PATH_RE` (line 27): `^/(?:api/)?images/([^/]+)/([^/]+)$`. -/
def matchInternalPath (path : String) : Option (String × String) :=
  match (splitOnChar '/' path.data).map String.mk with
  | ["", "images", ns, imageId] =>
      if ns ≠ "" ∧ imageId ≠ "" then some (ns, imageId) else none
  | ["", "api", "images", ns, imageId] =>
      if ns ≠ "" ∧ imageId ≠ "" then some (ns, imageId) else none
  | _ => none

/-- `parsed.port or (443 if parsed.scheme.lower() == "https" else 80)`
(`0` is falsy in Python). -/
def portOrDefault (u : UrlParts) : Nat :=
  let d := if strLower u.scheme == "https" then 443 else 80
  match u.port with
  | none => d
  | some p => if p == 0 then d else p

/-- Lowercasing applied to hostnames before comparison
(`parsed.hostname.lower()`). -/
def hostLower : Hostname → Hostname
  | .name s => .name (strLower s)
  | h => h

/-- The host/scheme/port comparison of `_try_serve_local` (lines 60-70):
`true` means "keep going" (either the URL has no (truthy) host, or host,
scheme and effective port all match the service base URL). -/
def hostMatchOk (u base : UrlParts) : Bool :=
  if !hostTruthy u.hostname then true
  else if !hostTruthy base.hostname then false
  else
    match u.hostname, base.hostname with
    | some h, some bh =>
        hostLower h == hostLower bh &&
        (u.scheme == "" || base.scheme == "" ||
          strLower u.scheme == strLower base.scheme) &&
        portOrDefault u == portOrDefault base
    | _, _ => false

/-- `images.py _try_serve_local` (lines 57-81): serve the image bytes and
media type from local storage when the URL points at this service and the
image exists; `AppError` raised by `_validate_path_segment` propagates. -/
def try_serve_local (fs : FS) (u base : UrlParts) :
    Except AppError (Option (ByteSeq × String)) :=
  if !hostMatchOk u base then .ok none
  else
    match matchInternalPath u.path with
    | none => .ok none
    | some nsId =>
        if segmentRejected nsId.1 then .error ⟨400, "Invalid namespace"⟩
        else if segmentRejected nsId.2 then .error ⟨400, "Invalid image_id"⟩
        else
          match ImageHosting.get_image_path fs nsId.1 nsId.2 with
          | none => .ok none
          | some fm => .ok (some ((fs.readFile nsId.1 fm.1).getD [], fm.2))

/-- Result of the `/images/fetch` endpoint: the response (base64 data and
mime type) and the list of URLs actually fetched from the network. -/
structure FetchOut where
  result : Except AppError (String × String)
  fetched : List UrlParts
deriving DecidableEq

/-- `images.py fetch_external_image` (lines 84-101).  `fetchO` gives the
result of `image_fetcher.fetch_image` for a URL (`none` = fetch failure);
`if not fetched_bytes` treats `None` and `b""` alike. -/
def fetch_external_image (fs : FS) (base u : UrlParts)
    (fetchO : UrlParts → Option ByteSeq) : FetchOut :=
  match try_serve_local fs u base with
  | .error e => ⟨.error e, []⟩
  | .ok (some bm) => ⟨.ok (b64encode bm.1, bm.2), []⟩
  | .ok none =>
      match validate_fetch_url u with
      | .error e => ⟨.error e, []⟩
      | .ok _ =>
          match fetchO u with
          | none => ⟨.error ⟨502, "Failed to fetch external image"⟩, [u]⟩
          | some bs =>
              if bs == [] then ⟨.error ⟨502, "Failed to fetch external image"⟩, [u]⟩
              else ⟨.ok (b64encode bs, ImageHosting.detect_mime_type bs), [u]⟩

/-- Python-dict assignment `d[k] = v` on an association list. -/
def dictInsert (d : List (UrlParts × String)) (k : UrlParts) (v : String) :
    List (UrlParts × String) :=
  if d.any (fun p => p.1 == k) then
    d.map fun p => if p.1 == k then (k, v) else p
  else d ++ [(k, v)]

/-- Python-dict lookup `d.get(k)`. -/
def dictLookup (d : List (UrlParts × String)) (k : UrlParts) : Option String :=
  (d.find? fun p => p.1 == k).map (fun p => p.2)

/-- The `_proxy_one` task body of `proxy_images` (lines 111-122): validate,
fetch, store; any exception is caught and logged, leaving the state
unchanged except for effects already performed.  `genId` is the random id
drawn for a URL's store step and `wrO` its disk-write outcome. -/
def proxy_one (ns baseStripped : String) (fetchO : UrlParts → Option ByteSeq)
    (genId : UrlParts → String) (wrO : UrlParts → WriteOutcome) (maxSize : Nat)
    (st : FS × List (UrlParts × String)) (u : UrlParts) :
    FS × List (UrlParts × String) :=
  match validate_fetch_url u with
  | .error _ => st
  | .ok _ =>
      match fetchO u with
      | none => st
      | some bytes =>
          if bytes == [] then st
          else
            let r := ImageHosting.save_image_bytes st.1 ns bytes (genId u) maxSize (wrO u)
            match r.1 with
            | none => (r.2, st.2)
            | some imageId =>
                if imageId == "" then (r.2, st.2)
                else (r.2, dictInsert st.2 u (ImageHosting.get_image_url ns imageId baseStripped))

/-- Result of the bulk proxy endpoint. -/
structure ProxyOut where
  result : Except AppError (List (UrlParts × String))
  fs : FS
deriving DecidableEq

/-- `images.py proxy_images` (lines 104-125): validate the namespace, then
push every URL through guard → fetch → store, collecting the source-URL →
stored-URL mapping; per-URL failures are swallowed.  The bounded concurrency
(semaphore of 5) only limits parallelism and is modelled sequentially. -/
def proxy_images (fs : FS) (ns base : String) (urls : List UrlParts)
    (fetchO : UrlParts → Option ByteSeq) (genId : UrlParts → String)
    (wrO : UrlParts → WriteOutcome) (maxSize : Nat) : ProxyOut :=
  if segmentRejected ns then ⟨.error ⟨400, "Invalid namespace"⟩, fs⟩
  else
    let st := urls.foldl (proxy_one ns (rstripSlash base) fetchO genId wrO maxSize) (fs, [])
    ⟨.ok st.2, st.1⟩

/-- `images.py get_image` (lines 128-142): validate both path segments, then
resolve; the response carries the file and its media type. -/
def get_image (fs : FS) (ns imageId : String) : Except AppError (String × String) :=
  if segmentRejected ns then .error ⟨400, "Invalid namespace"⟩
  else if segmentRejected imageId then .error ⟨400, "Invalid image_id"⟩
  else
    match ImageHosting.get_image_path fs ns imageId with
    | none => .error ⟨404, "Image not found"⟩
    | some fm => .ok fm

/-- `images.py upload_image` (lines 145-155). -/
def upload_image (fs : FS) (ns base data newId : String) (maxUploadSize : Nat)
    (wr : WriteOutcome) : Except AppError (String × String) × FS :=
  if segmentRejected ns then (.error ⟨400, "Invalid namespace"⟩, fs)
  else
    let r := ImageHosting.save_image fs ns data newId maxUploadSize wr
    match r.1 with
    | none => (.error ⟨500, "Failed to save image"⟩, r.2)
    | some imageId =>
        if imageId == "" then (.error ⟨500, "Failed to save image"⟩, r.2)
        else (.ok (imageId, ImageHosting.get_image_url ns imageId (rstripSlash base)), r.2)

/-- `images.py delete_images` (lines 158-163). -/
def delete_images (fs : FS) (ns : String) : Except AppError Nat × FS :=
  if segmentRejected ns then (.error ⟨400, "Invalid namespace"⟩, fs)
  else
    let r := ImageHosting.delete_namespace_images fs ns
    (.ok r.1, r.2)

/-- Whether the URL guard passes a URL. -/
def validateOk (u : UrlParts) : Bool :=
  match validate_fetch_url u with
  | .ok _ => true
  | .error _ => false

/-- Success of the whole per-URL proxy pipeline: guard passes, fetch yields
truthy bytes, normalization succeeds, and the disk write completes. -/
def pipelineOk (fetchO : UrlParts → Option ByteSeq) (wrO : UrlParts → WriteOutcome)
    (maxSize : Nat) (u : UrlParts) : Bool :=
  validateOk u &&
    match fetchO u with
    | none => false
    | some bs =>
        !(bs == []) && (ImageHosting.resize_image bs maxSize).isSome &&
          (wrO u == WriteOutcome.ok)

end ImagesApi

/-! ## Helper lemmas -/

theorem pilDecode_pilEncode (img : PILImage) : pilDecode (pilEncode img) = some img := by
  cases img with
  | mk w h m =>
      cases m <;> simp [pilEncode, pilDecode, modeTag, modeOfTag] <;>
        refine ⟨by omega, by omega⟩

theorem pilEncode_inj {a b : PILImage} (h : pilEncode a = pilEncode b) : a = b := by
  have ha := pilDecode_pilEncode a
  rw [h, pilDecode_pilEncode] at ha
  exact (Option.some.inj ha).symm

theorem detect_format_pilEncode (img : PILImage) :
    ImageHosting.detect_image_format (pilEncode img) = .jpeg := by
  unfold ImageHosting.detect_image_format pilEncode
  simp

theorem div_mul_le_of_le {a b m : Nat} (hab : a ≤ b) (hb : 0 < b) : a * m / b ≤ m := by
  calc a * m / b ≤ b * m / b := Nat.div_le_div_right (Nat.mul_le_mul_right m hab)
    _ = m := Nat.mul_div_cancel_left m hb

theorem resizeDims_le (maxSize w h : Nat) :
    (ImageHosting.resizeDims maxSize w h).1 ≤ maxSize ∧
    (ImageHosting.resizeDims maxSize w h).2 ≤ maxSize := by
  unfold ImageHosting.resizeDims
  split_ifs with htr hwh
  · exact ⟨le_refl _, div_mul_le_of_le (Nat.le_of_lt hwh) (by omega)⟩
  · have hwle : w ≤ h := Nat.le_of_not_lt hwh
    have hpos : 0 < h := by omega
    exact ⟨div_mul_le_of_le hwle hpos, le_refl _⟩
  · push_neg at htr
    exact htr

theorem resizedImage_dims_le (img : PILImage) (maxSize : Nat) :
    (ImageHosting.resizedImage img maxSize).width ≤ maxSize ∧
    (ImageHosting.resizedImage img maxSize).height ≤ maxSize :=
  resizeDims_le maxSize (ImageHosting.convertMode img).width
    (ImageHosting.convertMode img).height

theorem pilDecode_cons8 (a b c d e f g h : Nat) (t : List Nat) :
    pilDecode (a :: b :: c :: d :: e :: f :: g :: h :: t) = none := rfl

theorem save_image_bytes_fst (fs : FS) (ns : String) (bytes : ByteSeq)
    (newId : String) (maxSize : Nat) (wr : WriteOutcome) :
    (ImageHosting.save_image_bytes fs ns bytes newId maxSize wr).1 =
      if (ImageHosting.resize_image bytes maxSize).isSome ∧ wr = .ok
      then some newId else none := by
  unfold ImageHosting.save_image_bytes
  cases hr : ImageHosting.resize_image bytes maxSize <;> cases wr <;> simp [hr]

theorem find?_map_update (k : UrlParts) (v : String)
    (d : List (UrlParts × String)) :
    ((d.map fun p => if p.1 == k then (k, v) else p).find? fun p => p.1 == k)
      = if d.any (fun p => p.1 == k) then some (k, v) else none := by
  induction d with
  | nil => simp
  | cons q d ih =>
      by_cases hq : q.1 = k
      · simp [List.find?_cons_of_pos, hq]
      · have hq2 : (q.1 == k) = false := by simpa using hq
        simp only [List.map_cons, hq2, Bool.false_eq_true, if_neg, List.any_cons,
          Bool.false_or, not_false_eq_true]
        rw [List.find?_cons_of_neg _ (by simp [hq2])]
        exact ih

theorem find?_map_update_ne {u k : UrlParts} (v : String)
    (d : List (UrlParts × String)) (hne : u ≠ k) :
    ((d.map fun p => if p.1 == k then (k, v) else p).find? fun p => p.1 == u)
      = d.find? fun p => p.1 == u := by
  induction d with
  | nil => simp
  | cons q d ih =>
      by_cases hq : q.1 = k
      · have h1 : (k == u) = false := beq_eq_false_iff_ne.mpr (Ne.symm hne)
        have h2 : (q.1 == u) = false := by
          rw [hq]
          exact h1
        simp only [List.map_cons, hq, beq_self_eq_true, if_pos]
        rw [List.find?_cons_of_neg _ (by simp [h1]),
          List.find?_cons_of_neg _ (by simp [h2])]
        exact ih
      · have hq2 : (q.1 == k) = false := by simpa using hq
        simp only [List.map_cons, hq2, Bool.false_eq_true, if_neg, not_false_eq_true]
        by_cases hu : q.1 = u
        · rw [List.find?_cons_of_pos _ (by simp [hu]),
            List.find?_cons_of_pos _ (by simp [hu])]
        · rw [List.find?_cons_of_neg _ (by simp [hu]),
            List.find?_cons_of_neg _ (by simp [hu])]
          exact ih

theorem find?_append_none {α : Type} (p : α → Bool) (l₁ l₂ : List α)
    (h : l₁.find? p = none) : (l₁ ++ l₂).find? p = l₂.find? p := by
  induction l₁ with
  | nil => simp
  | cons a l ih =>
      by_cases ha : p a
      · rw [List.find?_cons_of_pos _ ha] at h
        exact absurd h (by simp)
      · rw [List.find?_cons_of_neg _ ha] at h
        rw [List.cons_append, List.find?_cons_of_neg _ ha]
        exact ih h

theorem find?_append_some {α : Type} (p : α → Bool) (l₁ l₂ : List α) (a : α)
    (h : l₁.find? p = some a) : (l₁ ++ l₂).find? p = some a := by
  induction l₁ with
  | nil => simp at h
  | cons b l ih =>
      by_cases hb : p b
      · rw [List.find?_cons_of_pos _ hb] at h
        rw [List.cons_append, List.find?_cons_of_pos _ hb]
        exact h
      · rw [List.find?_cons_of_neg _ hb] at h
        rw [List.cons_append, List.find?_cons_of_neg _ hb]
        exact ih h

theorem any_eq_false_find?_none {α : Type} (p : α → Bool) (l : List α)
    (h : l.any p = false) : l.find? p = none := by
  induction l with
  | nil => simp
  | cons a l ih =>
      simp only [List.any_cons, Bool.or_eq_false_iff] at h
      rw [List.find?_cons_of_neg _ (by simp [h.1])]
      exact ih h.2

theorem dictLookup_insert_self (d : List (UrlParts × String))
    (k : UrlParts) (v : String) :
    ImagesApi.dictLookup (ImagesApi.dictInsert d k v) k = some v := by
  unfold ImagesApi.dictInsert ImagesApi.dictLookup
  by_cases h : d.any (fun p => p.1 == k)
  · rw [if_pos h, find?_map_update, if_pos h]
    rfl
  · rw [if_neg h, find?_append_none _ _ _
      (any_eq_false_find?_none _ _ (Bool.eq_false_iff.mpr h))]
    rw [List.find?_cons_of_pos _ (by simp)]
    rfl

theorem dictLookup_insert_ne (d : List (UrlParts × String))
    {u k : UrlParts} (v : String) (hne : u ≠ k) :
    ImagesApi.dictLookup (ImagesApi.dictInsert d k v) u = ImagesApi.dictLookup d u := by
  unfold ImagesApi.dictInsert ImagesApi.dictLookup
  by_cases h : d.any (fun p => p.1 == k)
  · rw [if_pos h, find?_map_update_ne _ _ hne]
  · rw [if_neg h]
    cases hf : d.find? fun p => p.1 == u with
    | some q => rw [find?_append_some _ _ _ _ hf]
    | none =>
        rw [find?_append_none _ _ _ hf,
          List.find?_cons_of_neg _
            (by simp only [beq_eq_false_iff_ne.mpr (Ne.symm hne)]; exact Bool.false_ne_true),
          List.find?_nil]

theorem proxy_one_snd (ns bs : String) (fetchO : UrlParts → Option ByteSeq)
    (genId : UrlParts → String) (wrO : UrlParts → WriteOutcome) (maxSize : Nat)
    (st : FS × List (UrlParts × String)) (u : UrlParts) (hId : genId u ≠ "") :
    (ImagesApi.proxy_one ns bs fetchO genId wrO maxSize st u).2 =
      if ImagesApi.pipelineOk fetchO wrO maxSize u = true
      then ImagesApi.dictInsert st.2 u (ImageHosting.get_image_url ns (genId u) bs)
      else st.2 := by
  unfold ImagesApi.proxy_one ImagesApi.pipelineOk ImagesApi.validateOk
  cases hv : ImagesApi.validate_fetch_url u with
  | error e => simp
  | ok w =>
      simp only [Bool.true_and]
      cases hf : fetchO u with
      | none => simp
      | some bytes =>
          by_cases hb : bytes == []
          · simp [hb]
          · simp only [hb, Bool.not_false, Bool.true_and]
            by_cases hcond :
                (ImageHosting.resize_image bytes maxSize).isSome ∧ wrO u = .ok
            · have h1 : (ImageHosting.save_image_bytes st.1 ns bytes (genId u)
                  maxSize (wrO u)).1 = some (genId u) := by
                rw [save_image_bytes_fst, if_pos hcond]
              rw [hcond.2] at h1
              simp [h1, hcond.1, hcond.2, hId]
            · have h1 : (ImageHosting.save_image_bytes st.1 ns bytes (genId u)
                  maxSize (wrO u)).1 = none := by
                rw [save_image_bytes_fst, if_neg hcond]
              have h3 :
                  ((ImageHosting.resize_image bytes maxSize).isSome &&
                    (wrO u == WriteOutcome.ok)) = false := by
                rcases Classical.em
                    ((ImageHosting.resize_image bytes maxSize).isSome = true) with hi | hi
                · have hw : wrO u ≠ .ok := fun hc => hcond ⟨hi, hc⟩
                  simp [hi, beq_eq_false_iff_ne.mpr hw]
                · simp [Bool.eq_false_iff.mpr hi]
              simp [h1, h3]

theorem proxy_fold_lookup (ns bs : String) (fetchO : UrlParts → Option ByteSeq)
    (genId : UrlParts → String) (wrO : UrlParts → WriteOutcome) (maxSize : Nat)
    (hId : ∀ u, genId u ≠ "") :
    ∀ (urls : List UrlParts) (st : FS × List (UrlParts × String)) (u : UrlParts),
      ImagesApi.dictLookup
          ((urls.foldl (ImagesApi.proxy_one ns bs fetchO genId wrO maxSize) st).2) u
        = if u ∈ urls ∧ ImagesApi.pipelineOk fetchO wrO maxSize u = true
          then some (ImageHosting.get_image_url ns (genId u) bs)
          else ImagesApi.dictLookup st.2 u := by
  intro urls
  induction urls with
  | nil => intro st u; simp
  | cons w rest ih =>
      intro st u
      rw [List.foldl_cons, ih]
      by_cases hm : u ∈ rest ∧ ImagesApi.pipelineOk fetchO wrO maxSize u = true
      · rw [if_pos hm, if_pos ⟨List.mem_cons_of_mem w hm.1, hm.2⟩]
      · rw [if_neg hm, proxy_one_snd ns bs fetchO genId wrO maxSize st w (hId w)]
        by_cases huw : u = w
        · subst huw
          by_cases hp : ImagesApi.pipelineOk fetchO wrO maxSize u = true
          · rw [if_pos hp, if_pos ⟨List.mem_cons_self u rest, hp⟩,
              dictLookup_insert_self]
          · rw [if_neg hp, if_neg (fun hc => hp hc.2)]
        · have hcond : ¬(u ∈ w :: rest ∧
              ImagesApi.pipelineOk fetchO wrO maxSize u = true) := by
            intro hc
            rcases List.mem_cons.mp hc.1 with h | h
            · exact huw h
            · exact hm ⟨h, hc.2⟩
          rw [if_neg hcond]
          by_cases hp : ImagesApi.pipelineOk fetchO wrO maxSize w = true
          · rw [if_pos hp, dictLookup_insert_ne _ _ huw]
          · rw [if_neg hp]

/-! ## Claim theorems -/

/-- C1: for every call to the bulk proxy operation with a valid namespace and
a list of URLs, the returned mapping contains exactly the URLs for which
validate, fetch, normalize and store all succeeded, each mapped to its stored
URL; a failure at any stage for one URL omits only that URL and never fails
the batch, and an empty input list yields an empty mapping with success
status.  (`save_image_bytes` is modelled from the spec, being absent from the
provided sources.) -/
theorem proxy_images_maps_exactly_successes
    (fs : FS) (ns base : String) (urls : List UrlParts)
    (fetchO : UrlParts → Option ByteSeq) (genId : UrlParts → String)
    (wrO : UrlParts → WriteOutcome) (maxSize : Nat)
    (hns : ImagesApi.segmentRejected ns = false) (hId : ∀ u, genId u ≠ "") :
    ∃ d, (ImagesApi.proxy_images fs ns base urls fetchO genId wrO maxSize).result = .ok d
      ∧ (∀ u v, ImagesApi.dictLookup d u = some v ↔
          u ∈ urls ∧ ImagesApi.pipelineOk fetchO wrO maxSize u = true ∧
          v = ImageHosting.get_image_url ns (genId u) (rstripSlash base))
      ∧ (urls = [] → d = []) := by
  unfold ImagesApi.proxy_images
  simp only [hns, Bool.false_eq_true, if_neg, not_false_eq_true]
  refine ⟨(urls.foldl
      (ImagesApi.proxy_one ns (rstripSlash base) fetchO genId wrO maxSize) (fs, [])).2,
    rfl, ?_, ?_⟩
  · intro u v
    rw [proxy_fold_lookup ns (rstripSlash base) fetchO genId wrO maxSize hId urls (fs, []) u]
    by_cases hc : u ∈ urls ∧ ImagesApi.pipelineOk fetchO wrO maxSize u = true
    · rw [if_pos hc]
      constructor
      · intro h
        exact ⟨hc.1, hc.2, (Option.some.inj h).symm⟩
      · intro h
        rw [h.2.2]
    · rw [if_neg hc]
      constructor
      · intro h
        exact absurd h (by simp [ImagesApi.dictLookup])
      · intro h
        exact absurd ⟨h.1, h.2.1⟩ hc
  · intro h
    subst h
    rfl

/-- Witness for C1: two URLs, one fetchable and one not, against an empty
store — the mapping holds exactly the fetchable one. -/
theorem proxy_images_maps_exactly_successes_witness :
    ∃ d, (ImagesApi.proxy_images ⟨[], []⟩ "ns" "http://h:8000"
        [⟨"https", some (.name "example.com"), none, "/a.jpg"⟩,
         ⟨"https", some (.name "example.com"), none, "/fail.jpg"⟩]
        (fun u => if u.path = "/a.jpg" then some (pilEncode ⟨4, 3, .RGB⟩) else none)
        (fun _ => "id1") (fun _ => .ok) 1200).result = .ok d
      ∧ ImagesApi.dictLookup d ⟨"https", some (.name "example.com"), none, "/a.jpg"⟩
          = some "http://h:8000/images/ns/id1"
      ∧ ImagesApi.dictLookup d ⟨"https", some (.name "example.com"), none, "/fail.jpg"⟩
          = none := by
  obtain ⟨d, hd, hiff, _⟩ := proxy_images_maps_exactly_successes ⟨[], []⟩ "ns" "http://h:8000"
      [⟨"https", some (.name "example.com"), none, "/a.jpg"⟩,
       ⟨"https", some (.name "example.com"), none, "/fail.jpg"⟩]
      (fun u => if u.path = "/a.jpg" then some (pilEncode ⟨4, 3, .RGB⟩) else none)
      (fun _ => "id1") (fun _ => .ok) 1200 (by decide)
      (fun u => by show "id1" ≠ ""; decide)
  refine ⟨d, hd, ?_, ?_⟩
  · exact (hiff ⟨"https", some (.name "example.com"), none, "/a.jpg"⟩
      "http://h:8000/images/ns/id1").mpr ⟨by decide, by decide, by decide⟩
  · cases hl : ImagesApi.dictLookup d
        ⟨"https", some (.name "example.com"), none, "/fail.jpg"⟩ with
    | none => rfl
    | some v =>
        obtain ⟨_, hp, _⟩ := (hiff _ v).mp hl
        exact absurd hp (by decide)

/-- C2 (code evaluated at the failing input): no byte ceiling exists — a 2xx
response whose body exceeds the `max_fetch_bytes` value expected by the
repository's own tests is read in full and returned in full by
`fetch_image`. -/
theorem fetch_reads_full_body_past_ceiling :
    ImageFetcher.bytesRead (some ⟨200, 0 :: 0 :: 0 :: 0 :: 0 :: 0 :: 0 :: 0 ::
        List.replicate (testExpectedMaxFetchBytes - 7) 0⟩)
      = testExpectedMaxFetchBytes + 1
    ∧ ImageFetcher.fetch_image (some ⟨200, 0 :: 0 :: 0 :: 0 :: 0 :: 0 :: 0 :: 0 ::
          List.replicate (testExpectedMaxFetchBytes - 7) 0⟩) settings.max_fetch_size
        = some (0 :: 0 :: 0 :: 0 :: 0 :: 0 :: 0 :: 0 ::
          List.replicate (testExpectedMaxFetchBytes - 7) 0) := by
  constructor
  · show (0 :: 0 :: 0 :: 0 :: 0 :: 0 :: 0 :: 0 ::
        List.replicate (testExpectedMaxFetchBytes - 7) (0 : Nat)).length
      = testExpectedMaxFetchBytes + 1
    rw [List.length_cons, List.length_cons, List.length_cons, List.length_cons,
      List.length_cons, List.length_cons, List.length_cons, List.length_cons,
      List.length_replicate]
    rw [testExpectedMaxFetchBytes]
  · have hdec := pilDecode_cons8 0 0 0 0 0 0 0 0
      (List.replicate (testExpectedMaxFetchBytes - 7) 0)
    simp [ImageFetcher.fetch_image, ImageFetcher.resize_image, hdec]

/-- C3: the URL guard rejects non-http(s) schemes (case-insensitively),
missing/empty hostnames, `localhost` and `*.localhost` forms, and blocked
(private / loopback / link-local / reserved / multicast / unspecified) IP
literals; it accepts every http(s) URL whose host is a public (non-blocked)
IP literal or an ordinary non-IP, non-localhost DNS name. -/
theorem url_guard_spec (u : UrlParts) :
    ((strLower u.scheme ≠ "http" ∧ strLower u.scheme ≠ "https") →
      ImagesApi.validate_fetch_url u = .error ⟨400, "Invalid url"⟩)
  ∧ (ImagesApi.hostTruthy u.hostname = false →
      ImagesApi.validate_fetch_url u = .error ⟨400, "Invalid url"⟩)
  ∧ (∀ h, u.hostname = some h → ImagesApi.hostIsLocalhostForm h = true →
      ImagesApi.validate_fetch_url u = .error ⟨400, "Invalid url"⟩)
  ∧ (∀ h, u.hostname = some h → ImagesApi.is_blocked_ip h = true →
      ImagesApi.validate_fetch_url u = .error ⟨400, "Invalid url"⟩)
  ∧ ((strLower u.scheme = "http" ∨ strLower u.scheme = "https") →
      ∀ a, u.hostname = some (.ip4 a) → ImagesApi.is_blocked_ip (.ip4 a) = false →
        ImagesApi.validate_fetch_url u = .ok ())
  ∧ ((strLower u.scheme = "http" ∨ strLower u.scheme = "https") →
      ∀ a, u.hostname = some (.ip6 a) → ImagesApi.is_blocked_ip (.ip6 a) = false →
        ImagesApi.validate_fetch_url u = .ok ())
  ∧ ((strLower u.scheme = "http" ∨ strLower u.scheme = "https") →
      ∀ s, u.hostname = some (.name s) → s ≠ "" →
        ImagesApi.hostIsLocalhostForm (.name s) = false →
        ImagesApi.validate_fetch_url u = .ok ()) := by
  refine ⟨?_, ?_, ?_, ?_, ?_, ?_, ?_⟩
  · intro ⟨h1, h2⟩
    simp [ImagesApi.validate_fetch_url, h1, h2]
  · intro h
    simp [ImagesApi.validate_fetch_url, h]
  · intro h hh hloc
    cases h with
    | ip4 a => exact absurd hloc (by simp [ImagesApi.hostIsLocalhostForm])
    | ip6 a => exact absurd hloc (by simp [ImagesApi.hostIsLocalhostForm])
    | name s =>
        simp [ImagesApi.validate_fetch_url, hh, hloc, ImagesApi.hostTruthy]
  · intro h hh hbl
    cases h with
    | name s => exact absurd hbl (by simp [ImagesApi.is_blocked_ip])
    | ip4 a =>
        simp [ImagesApi.validate_fetch_url, hh, hbl, ImagesApi.hostTruthy,
          ImagesApi.hostIsLocalhostForm]
    | ip6 a =>
        simp [ImagesApi.validate_fetch_url, hh, hbl, ImagesApi.hostTruthy,
          ImagesApi.hostIsLocalhostForm]
  · intro hs a hh hbl
    rcases hs with h1 | h1 <;>
      simp [ImagesApi.validate_fetch_url, hh, h1, hbl, ImagesApi.hostTruthy,
        ImagesApi.hostIsLocalhostForm]
  · intro hs a hh hbl
    rcases hs with h1 | h1 <;>
      simp [ImagesApi.validate_fetch_url, hh, h1, hbl, ImagesApi.hostTruthy,
        ImagesApi.hostIsLocalhostForm]
  · intro hs s hh hne hloc
    rcases hs with h1 | h1 <;>
      simp [ImagesApi.validate_fetch_url, hh, h1, hne, hloc, ImagesApi.hostTruthy,
        ImagesApi.is_blocked_ip]

/-- Witness for C3: the guard rejects `http://192.168.1.1/...` (private IPv4
literal) and accepts `http://example.com/...`. -/
theorem url_guard_spec_witness :
    ImagesApi.validate_fetch_url
        ⟨"http", some (.ip4 0xC0A80101), none, "/img.jpg"⟩ = .error ⟨400, "Invalid url"⟩
    ∧ ImagesApi.validate_fetch_url
        ⟨"http", some (.name "example.com"), none, "/img.jpg"⟩ = .ok () := by
  constructor
  · exact (url_guard_spec ⟨"http", some (.ip4 0xC0A80101), none, "/img.jpg"⟩).2.2.2.1
      (.ip4 0xC0A80101) rfl (by decide)
  · exact (url_guard_spec ⟨"http", some (.name "example.com"), none, "/img.jpg"⟩).2.2.2.2.2.2
      (by decide) "example.com" rfl (by decide) (by decide)

/-- C4 counterexample: the claim's `round(H·max/W)` is false — for a
decodable 1600×999 image and `max_dimension = 800` the code produces height
`int(999·800/1600) = 499`, while `round(999·800/1600) = round(499.5) = 500`. -/
theorem resize_round_counterexample :
    ¬ (∀ (b : ByteSeq) (img : PILImage) (maxSize : Nat),
        pilDecode b = some img → img.width > img.height → img.width > maxSize →
        ∃ img2, ImageHosting.resize_image b maxSize = some (pilEncode img2, .jpeg) ∧
          img2.width = maxSize ∧
          (img2.height : ℤ) = round ((img.height * maxSize : ℚ) / img.width)) := by
  intro hcl
  obtain ⟨img2, heq, hw, hh⟩ := hcl (pilEncode ⟨1600, 999, .RGB⟩) ⟨1600, 999, .RGB⟩ 800
    (pilDecode_pilEncode _) (by decide) (by decide)
  have hev : ImageHosting.resize_image (pilEncode ⟨1600, 999, .RGB⟩) 800
      = some (pilEncode ⟨800, 499, .RGB⟩, .jpeg) := by decide
  rw [hev] at heq
  have h2 : pilEncode img2 = pilEncode ⟨800, 499, .RGB⟩ :=
    congrArg Prod.fst (Option.some.inj heq.symm)
  have h3 : img2 = ⟨800, 499, .RGB⟩ := pilEncode_inj h2
  rw [h3] at hh
  norm_num [round_eq] at hh

/-- C4 (amended): resizing a decodable W×H image with W>H and W>max yields
width `max` and height `⌊H·max/W⌋` (truncating division, Python `int(...)`);
symmetrically for H>W; an image with both dimensions within the bound is
left at its original size (never upscaled). -/
theorem resize_floor_spec (b : ByteSeq) (img : PILImage) (maxSize : Nat)
    (hdec : pilDecode b = some img) :
    ImageHosting.resize_image b maxSize
      = some (pilEncode (ImageHosting.resizedImage img maxSize), .jpeg)
  ∧ (img.width > img.height → img.width > maxSize →
      (ImageHosting.resizedImage img maxSize).width = maxSize ∧
      (ImageHosting.resizedImage img maxSize).height = img.height * maxSize / img.width)
  ∧ (img.height > img.width → img.height > maxSize →
      (ImageHosting.resizedImage img maxSize).height = maxSize ∧
      (ImageHosting.resizedImage img maxSize).width = img.width * maxSize / img.height)
  ∧ (img.width ≤ maxSize → img.height ≤ maxSize →
      (ImageHosting.resizedImage img maxSize).width = img.width ∧
      (ImageHosting.resizedImage img maxSize).height = img.height) := by
  have hdims : (ImageHosting.convertMode img).width = img.width ∧
      (ImageHosting.convertMode img).height = img.height := by
    unfold ImageHosting.convertMode
    split_ifs <;> exact ⟨rfl, rfl⟩
  refine ⟨by simp [ImageHosting.resize_image, hdec], ?_, ?_, ?_⟩
  · intro h1 h2
    simp only [ImageHosting.resizedImage, ImageHosting.resizeDims, hdims.1, hdims.2]
    rw [if_pos (Or.inl h2), if_pos h1]
    exact ⟨rfl, rfl⟩
  · intro h1 h2
    simp only [ImageHosting.resizedImage, ImageHosting.resizeDims, hdims.1, hdims.2]
    rw [if_pos (Or.inr h2), if_neg (by omega)]
    exact ⟨rfl, rfl⟩
  · intro h1 h2
    simp only [ImageHosting.resizedImage, ImageHosting.resizeDims, hdims.1, hdims.2]
    rw [if_neg (by omega)]
    exact ⟨rfl, rfl⟩

/-- Witness for C4 (amended): a 2000×1000 image resized with bound 800
comes out exactly 800×400 (the spec's concrete scenario). -/
theorem resize_floor_spec_witness :
    (ImageHosting.resizedImage ⟨2000, 1000, .RGB⟩ 800).width = 800 ∧
    (ImageHosting.resizedImage ⟨2000, 1000, .RGB⟩ 800).height = 1000 * 800 / 2000 := by
  have h := resize_floor_spec (pilEncode ⟨2000, 1000, .RGB⟩) ⟨2000, 1000, .RGB⟩ 800
    (pilDecode_pilEncode _)
  exact h.2.1 (by decide) (by decide)

theorem readFile_writeFile (fs : FS) (ns fname : String) (content : ByteSeq) :
    (fs.writeFile ns fname content).readFile ns fname = some content := by
  unfold FS.writeFile FS.readFile
  rw [List.find?_cons_of_pos _ (by simp)]
  rfl

/-- C5: saving a decodable payload into a valid namespace and resolving the
returned ID yields a stored file whose bytes re-decode to an image with both
dimensions within the configured maximum, carrying the canonical re-encoded
jpeg format (jpeg magic, `.jpg` extension, `image/jpeg` media type). -/
theorem save_then_resolve_roundtrip
    (fs : FS) (ns payload newId : String) (bytes : ByteSeq) (img : PILImage)
    (maxSize : Nat)
    (hns : ImagesApi.segmentRejected ns = false)
    (hdec : b64decode (stripDataUrl payload) = some bytes)
    (himg : pilDecode bytes = some img) :
    (ImageHosting.save_image fs ns payload newId maxSize .ok).1 = some newId
  ∧ ImageHosting.get_image_path
      (ImageHosting.save_image fs ns payload newId maxSize .ok).2 ns newId
      = some (newId ++ "." ++ "jpg", "image/jpeg")
  ∧ ∃ stored img2,
      (ImageHosting.save_image fs ns payload newId maxSize .ok).2.readFile ns
          (newId ++ "." ++ "jpg") = some stored
      ∧ pilDecode stored = some img2
      ∧ img2.width ≤ maxSize ∧ img2.height ≤ maxSize
      ∧ ImageHosting.detect_image_format stored = .jpeg := by
  have hsave : ImageHosting.save_image fs ns payload newId maxSize .ok
      = (some newId, (fs.ensureDir ns).writeFile ns (newId ++ "." ++ "jpg")
          (pilEncode (ImageHosting.resizedImage img maxSize))) := by
    unfold ImageHosting.save_image
    rw [hdec]
    simp [ImageHosting.resize_image, himg, ImageHosting.formatToExt]
  have hread : (ImageHosting.save_image fs ns payload newId maxSize .ok).2.readFile ns
      (newId ++ "." ++ "jpg")
      = some (pilEncode (ImageHosting.resizedImage img maxSize)) := by
    rw [hsave]
    exact readFile_writeFile _ _ _ _
  refine ⟨by rw [hsave], ?_, ?_⟩
  · unfold ImageHosting.get_image_path ImageHosting.knownExts
    rw [List.findSome?_cons]
    simp only [FS.fileExists, hread, Option.isSome_some, if_pos]
    rfl
  · refine ⟨pilEncode (ImageHosting.resizedImage img maxSize),
      ImageHosting.resizedImage img maxSize, hread, pilDecode_pilEncode _,
      (resizedImage_dims_le img maxSize).1, (resizedImage_dims_le img maxSize).2,
      detect_format_pilEncode _⟩

/-- Witness for C5: a concrete 2000×1000 upload with bound 1200, saved and
resolved on an empty store. -/
theorem save_then_resolve_roundtrip_witness :
    (ImageHosting.save_image ⟨[], []⟩ "ns" (b64encode (pilEncode ⟨2000, 1000, .RGB⟩))
        "id1" 1200 .ok).1 = some "id1"
  ∧ ImageHosting.get_image_path
      (ImageHosting.save_image ⟨[], []⟩ "ns" (b64encode (pilEncode ⟨2000, 1000, .RGB⟩))
        "id1" 1200 .ok).2 "ns" "id1" = some ("id1.jpg", "image/jpeg") := by
  have h := save_then_resolve_roundtrip ⟨[], []⟩ "ns"
    (b64encode (pilEncode ⟨2000, 1000, .RGB⟩)) "id1" (pilEncode ⟨2000, 1000, .RGB⟩)
    ⟨2000, 1000, .RGB⟩ 1200 (by decide) (by decide) (pilDecode_pilEncode _)
  exact ⟨h.1, by rw [h.2.1]; rfl⟩

theorem filter_length_split {α : Type} (l : List α) (A B : α → Bool) :
    (l.filter A).length + ((l.filter fun a => !A a).filter B).length
      = (l.filter fun a => A a || B a).length := by
  induction l with
  | nil => simp
  | cons x l ih =>
      by_cases hA : A x = true
      · rw [List.filter_cons_of_pos hA, List.filter_cons_of_neg (by simp [hA]),
          List.filter_cons_of_pos (by simp [hA]), List.length_cons, List.length_cons]
        omega
      · have hA2 : A x = false := Bool.eq_false_iff.mpr hA
        by_cases hB : B x = true
        · rw [List.filter_cons_of_neg (by simp [hA2]),
            List.filter_cons_of_pos (by simp [hA2]),
            List.filter_cons_of_pos hB,
            List.filter_cons_of_pos (by simp [hA2, hB]),
            List.length_cons, List.length_cons]
          omega
        · have hB2 : B x = false := Bool.eq_false_iff.mpr hB
          rw [List.filter_cons_of_neg (by simp [hA2]),
            List.filter_cons_of_pos (by simp [hA2]),
            List.filter_cons_of_neg hB,
            List.filter_cons_of_neg (by simp [hA2, hB2])]
          omega

theorem filter_filter_not {α : Type} (l : List α) (A B : α → Bool) :
    ((l.filter fun a => !A a).filter fun a => !B a)
      = l.filter fun a => !(A a || B a) := by
  induction l with
  | nil => simp
  | cons x l ih =>
      by_cases hA : A x = true
      · rw [List.filter_cons_of_neg (by simp [hA]),
          List.filter_cons_of_neg (by simp [hA])]
        exact ih
      · have hA2 : A x = false := Bool.eq_false_iff.mpr hA
        by_cases hB : B x = true
        · rw [List.filter_cons_of_pos (by simp [hA2]),
            List.filter_cons_of_neg (by simp [hB]),
            List.filter_cons_of_neg (by simp [hA2, hB])]
          exact ih
        · have hB2 : B x = false := Bool.eq_false_iff.mpr hB
          rw [List.filter_cons_of_pos (by simp [hA2]),
            List.filter_cons_of_pos (by simp [hB2]),
            List.filter_cons_of_pos (by simp [hA2, hB2]), ih]

theorem delete_fold (ns : String) (L : List String) :
    ∀ (st : Nat × FS),
      L.foldl (fun acc ext =>
          let s := ImageHosting.FS.deleteExt acc.2 ns ext
          (acc.1 + s.1, s.2)) st
        = (st.1 + (st.2.files.filter fun f =>
              f.1 == ns && L.any fun ext => endsWithExt f.2.1 ext).length,
          ⟨st.2.dirs, st.2.files.filter fun f =>
              !(f.1 == ns && L.any fun ext => endsWithExt f.2.1 ext)⟩) := by
  induction L with
  | nil => intro st; simp
  | cons e L ih =>
      intro st
      rw [List.foldl_cons, ih]
      show (st.1 + (st.2.files.filter fun f => f.1 == ns && endsWithExt f.2.1 e).length
          + ((st.2.files.filter fun f => !(f.1 == ns && endsWithExt f.2.1 e)).filter fun f =>
              f.1 == ns && L.any fun ext => endsWithExt f.2.1 ext).length,
        (⟨st.2.dirs, (st.2.files.filter fun f =>
            !(f.1 == ns && endsWithExt f.2.1 e)).filter fun f =>
              !(f.1 == ns && L.any fun ext => endsWithExt f.2.1 ext)⟩ : FS)) = _
      have hcount : (st.2.files.filter fun f => f.1 == ns && endsWithExt f.2.1 e).length +
          ((st.2.files.filter fun f => !(f.1 == ns && endsWithExt f.2.1 e)).filter fun f =>
            f.1 == ns && L.any fun ext => endsWithExt f.2.1 ext).length
          = (st.2.files.filter fun f =>
              f.1 == ns && (e :: L).any fun ext => endsWithExt f.2.1 ext).length := by
        rw [filter_length_split]
        congr 1
        apply List.filter_congr
        intro f _
        cases hns : (f.1 == ns) <;> simp [hns, List.any_cons]
      have hfiles : ((st.2.files.filter fun f => !(f.1 == ns && endsWithExt f.2.1 e)).filter
            fun f => !(f.1 == ns && L.any fun ext => endsWithExt f.2.1 ext))
          = st.2.files.filter fun f =>
              !(f.1 == ns && (e :: L).any fun ext => endsWithExt f.2.1 ext) := by
        rw [filter_filter_not]
        apply List.filter_congr
        intro f _
        cases hns : (f.1 == ns) <;> simp [hns, List.any_cons]
      rw [Nat.add_assoc, hcount, hfiles]

/-- C6: deleting a namespace that exists and holds only images with known
extensions removes exactly all its files and the now-empty directory,
returning their count; a second deletion, and deletion of a non-existent
namespace, return 0 with the state unchanged and never an error. -/
theorem delete_namespace_spec (fs : FS) (ns : String)
    (hdir : fs.dirExists ns = true)
    (hknown : ∀ f ∈ fs.files, f.1 = ns →
      (ImageHosting.knownExts.any fun ext => endsWithExt f.2.1 ext) = true) :
    (ImageHosting.delete_namespace_images fs ns).1
        = (fs.files.filter fun f => f.1 == ns).length
  ∧ ((ImageHosting.delete_namespace_images fs ns).2.files.filter fun f => f.1 == ns) = []
  ∧ (ImageHosting.delete_namespace_images fs ns).2.dirExists ns = false
  ∧ ImageHosting.delete_namespace_images (ImageHosting.delete_namespace_images fs ns).2 ns
      = (0, (ImageHosting.delete_namespace_images fs ns).2)
  ∧ (∀ (fs2 : FS) (ns2 : String), fs2.dirExists ns2 = false →
      ImageHosting.delete_namespace_images fs2 ns2 = (0, fs2)) := by
  have hmissing : ∀ (fs2 : FS) (ns2 : String), fs2.dirExists ns2 = false →
      ImageHosting.delete_namespace_images fs2 ns2 = (0, fs2) := by
    intro fs2 ns2 h
    unfold ImageHosting.delete_namespace_images
    rw [if_pos (by simp [h])]
  have hcongr1 : (fs.files.filter fun f =>
        f.1 == ns && ImageHosting.knownExts.any fun ext => endsWithExt f.2.1 ext)
      = fs.files.filter fun f => f.1 == ns := by
    apply List.filter_congr
    intro f hf
    cases hns : (f.1 == ns)
    · simp
    · simp [hknown f hf (by simpa using hns)]
  have hcongr2 : (fs.files.filter fun f =>
        !(f.1 == ns && ImageHosting.knownExts.any fun ext => endsWithExt f.2.1 ext))
      = fs.files.filter fun f => !(f.1 == ns) := by
    apply List.filter_congr
    intro f hf
    cases hns : (f.1 == ns)
    · simp
    · simp [hknown f hf (by simpa using hns)]
  have hresid : ((fs.files.filter fun f => !(f.1 == ns)).filter fun f => f.1 == ns) = [] := by
    rw [List.filter_eq_nil_iff]
    intro f hf
    have := (List.mem_filter.mp hf).2
    simp at this
    simp [this]
  have hdel : ImageHosting.delete_namespace_images fs ns
      = ((fs.files.filter fun f => f.1 == ns).length,
        ⟨fs.dirs.filter fun d => !(d == ns), fs.files.filter fun f => !(f.1 == ns)⟩) := by
    unfold ImageHosting.delete_namespace_images
    rw [if_neg (by simp [hdir]), delete_fold ns ImageHosting.knownExts (0, fs)]
    dsimp only
    rw [hcongr1, hcongr2, hresid]
    rw [if_pos (by simp), Nat.zero_add]
  refine ⟨by rw [hdel], by rw [hdel]; exact hresid, by rw [hdel]; simp [FS.dirExists], ?_,
    hmissing⟩
  rw [hdel]
  exact hmissing _ _ (by simp [FS.dirExists])

/-- Witness for C6: a namespace with two stored images yields a deletion
count of 2, an emptied and removed directory, and a second deletion count
of 0. -/
theorem delete_namespace_spec_witness :
    (ImageHosting.delete_namespace_images
        ⟨["del"], [("del", "a.jpg", []), ("del", "b.png", [1])]⟩ "del").1 = 2
  ∧ (ImageHosting.delete_namespace_images
        ⟨["del"], [("del", "a.jpg", []), ("del", "b.png", [1])]⟩ "del").2.dirExists "del"
      = false
  ∧ ImageHosting.delete_namespace_images
      (ImageHosting.delete_namespace_images
        ⟨["del"], [("del", "a.jpg", []), ("del", "b.png", [1])]⟩ "del").2 "del"
      = (0, (ImageHosting.delete_namespace_images
        ⟨["del"], [("del", "a.jpg", []), ("del", "b.png", [1])]⟩ "del").2) := by
  have h := delete_namespace_spec
    ⟨["del"], [("del", "a.jpg", []), ("del", "b.png", [1])]⟩ "del" (by decide) (by decide)
  exact ⟨h.1, h.2.2.1, h.2.2.2.1⟩

/-- C7: namespace/id path segments that are empty or contain `..` or `/` are
rejected with a 400 error by every endpoint taking them, before any storage
or network effect: the state is returned unchanged and the outcome is
independent of the fetch oracle. -/
theorem path_segment_reject_spec
    (fs : FS) (ns imageId base data newId : String) (maxUp : Nat) (wr : WriteOutcome)
    (urls : List UrlParts) (fetchO : UrlParts → Option ByteSeq)
    (genId : UrlParts → String) (wrO : UrlParts → WriteOutcome) (maxSize : Nat) :
    (ImagesApi.segmentRejected ns = true →
      ImagesApi.get_image fs ns imageId = .error ⟨400, "Invalid namespace"⟩
      ∧ ImagesApi.upload_image fs ns base data newId maxUp wr
          = (.error ⟨400, "Invalid namespace"⟩, fs)
      ∧ ImagesApi.delete_images fs ns = (.error ⟨400, "Invalid namespace"⟩, fs)
      ∧ ImagesApi.proxy_images fs ns base urls fetchO genId wrO maxSize
          = ⟨.error ⟨400, "Invalid namespace"⟩, fs⟩)
  ∧ (ImagesApi.segmentRejected ns = false → ImagesApi.segmentRejected imageId = true →
      ImagesApi.get_image fs ns imageId = .error ⟨400, "Invalid image_id"⟩) := by
  constructor
  · intro h
    refine ⟨?_, ?_, ?_, ?_⟩ <;>
      simp [ImagesApi.get_image, ImagesApi.upload_image, ImagesApi.delete_images,
        ImagesApi.proxy_images, h]
  · intro h1 h2
    simp [ImagesApi.get_image, h1, h2]

/-- Witness for C7: `..` and `/`-bearing segments are rejected by the
retrieve, delete and (as image id) retrieve endpoints on an empty store. -/
theorem path_segment_reject_spec_witness :
    ImagesApi.get_image ⟨[], []⟩ ".." "id" = .error ⟨400, "Invalid namespace"⟩
  ∧ ImagesApi.delete_images ⟨[], []⟩ "a/b" = (.error ⟨400, "Invalid namespace"⟩, ⟨[], []⟩)
  ∧ ImagesApi.get_image ⟨[], []⟩ "ns" "..evil" = .error ⟨400, "Invalid image_id"⟩ := by
  have h1 := path_segment_reject_spec ⟨[], []⟩ ".." "id" "" "" "" 0 .ok []
    (fun _ => none) (fun _ => "") (fun _ => .ok) 0
  have h2 := path_segment_reject_spec ⟨[], []⟩ "a/b" "id" "" "" "" 0 .ok []
    (fun _ => none) (fun _ => "") (fun _ => .ok) 0
  have h3 := path_segment_reject_spec ⟨[], []⟩ "ns" "..evil" "" "" "" 0 .ok []
    (fun _ => none) (fun _ => "") (fun _ => .ok) 0
  exact ⟨(h1.1 (by decide)).1, (h2.1 (by decide)).2.2.1, h3.2 (by decide) (by decide)⟩

/-- C8 counterexample: a disk-write failure makes `save_image` return
failure but leaves a truncated file on disk — the write happens through
`open(path, "wb")`, which creates the file, and no cleanup is attempted. -/
theorem save_partial_file_counterexample :
    (ImageHosting.save_image ⟨[], []⟩ "ns" (b64encode (pilEncode ⟨4, 3, .RGB⟩)) "id1" 1200
        (.failAfter 2)).1 = none
  ∧ (ImageHosting.save_image ⟨[], []⟩ "ns" (b64encode (pilEncode ⟨4, 3, .RGB⟩)) "id1" 1200
        (.failAfter 2)).2.readFile "ns" "id1.jpg" = some [255, 216] := by
  decide

/-- C8 (amended): `save_image` returns failure on a base64-decode failure, a
normalize failure, or a disk-write failure; decode and normalize failures
leave the storage state untouched, while a write failure may leave the
opened, truncated file behind. -/
theorem save_image_failure_spec (fs : FS) (ns data newId : String) (maxUp : Nat)
    (wr : WriteOutcome) :
    (b64decode (stripDataUrl data) = none →
      ImageHosting.save_image fs ns data newId maxUp wr = (none, fs))
  ∧ (∀ bytes, b64decode (stripDataUrl data) = some bytes →
      ImageHosting.resize_image bytes maxUp = none →
      ImageHosting.save_image fs ns data newId maxUp wr = (none, fs))
  ∧ (∀ k, wr = .failAfter k →
      (ImageHosting.save_image fs ns data newId maxUp wr).1 = none) := by
  refine ⟨?_, ?_, ?_⟩
  · intro h
    unfold ImageHosting.save_image
    rw [h]
  · intro bytes h1 h2
    unfold ImageHosting.save_image
    rw [h1]
    simp [h2]
  · intro k hk
    subst hk
    unfold ImageHosting.save_image
    cases hd : b64decode (stripDataUrl data) with
    | none => rfl
    | some bytes => cases hr : ImageHosting.resize_image bytes maxUp <;> simp [hr]

/-- Witness for C8 (amended): an undecodable base64 string and a
non-image payload both fail with the store untouched. -/
theorem save_image_failure_spec_witness :
    ImageHosting.save_image ⟨[], []⟩ "ns" "A" "id1" 100 .ok = (none, ⟨[], []⟩)
  ∧ ImageHosting.save_image ⟨[], []⟩ "ns" (b64encode [1, 2, 3]) "id1" 100 .ok
      = (none, ⟨[], []⟩) := by
  have h1 := save_image_failure_spec ⟨[], []⟩ "ns" "A" "id1" 100 .ok
  have h2 := save_image_failure_spec ⟨[], []⟩ "ns" (b64encode [1, 2, 3]) "id1" 100 .ok
  exact ⟨h1.1 (by decide), h2.2.1 [1, 2, 3] (by decide) (by decide)⟩

/-- C9: the normalization failure policy differs by entry point: on
undecodable bytes the fetch path (`image_fetcher.resize_image`, and hence
`fetch_image` on a 2xx response) falls back to the original bytes
unmodified, while the upload path (`_resize_image`, and hence `save_image`)
treats the failure as fatal and returns failure. -/
theorem normalize_policy_spec (bytes : ByteSeq) (maxSize : Nat) (fs : FS)
    (ns data newId : String) (wr : WriteOutcome)
    (hundec : pilDecode bytes = none) :
    ImageFetcher.resize_image bytes maxSize = bytes
  ∧ ImageFetcher.fetch_image (some ⟨200, bytes⟩) maxSize = some bytes
  ∧ ImageHosting.resize_image bytes maxSize = none
  ∧ (b64decode (stripDataUrl data) = some bytes →
      ImageHosting.save_image fs ns data newId maxSize wr = (none, fs)) := by
  have hl : ImageFetcher.resize_image bytes maxSize = bytes := by
    unfold ImageFetcher.resize_image
    rw [hundec]
  have hs : ImageHosting.resize_image bytes maxSize = none := by
    unfold ImageHosting.resize_image
    rw [hundec]
  refine ⟨hl, ?_, hs, ?_⟩
  · simp [ImageFetcher.fetch_image, hl]
  · intro hd
    unfold ImageHosting.save_image
    rw [hd]
    simp [hs]

/-- Witness for C9: bytes `[0,0,0]` decode to no image; the fetch path
returns them unchanged and the upload path fails. -/
theorem normalize_policy_spec_witness :
    ImageFetcher.resize_image [0, 0, 0] 800 = [0, 0, 0]
  ∧ ImageHosting.resize_image [0, 0, 0] 800 = none := by
  have h := normalize_policy_spec [0, 0, 0] 800 ⟨[], []⟩ "ns" "" "id" .ok (by decide)
  exact ⟨h.1, h.2.2.1⟩

/-- C10: a fetch-and-return request whose URL matches the service's own base
URL (or has no host) and whose path is `/images/{ns}/{id}` or
`/api/images/{ns}/{id}` (with well-formed segments) is served directly from
storage when the image exists: the stored bytes (base64) and media type come
back, no network fetch happens, and the URL guard is never consulted — so
such localhost-form URLs succeed although the guard rejects them. -/
theorem fetch_serves_local_spec (fs : FS) (base u : UrlParts)
    (fetchO : UrlParts → Option ByteSeq) (ns imageId fname mt : String)
    (hmatch : ImagesApi.matchInternalPath u.path = some (ns, imageId))
    (hhost : ImagesApi.hostMatchOk u base = true)
    (hns : ImagesApi.segmentRejected ns = false)
    (hid : ImagesApi.segmentRejected imageId = false)
    (hex : ImageHosting.get_image_path fs ns imageId = some (fname, mt)) :
    ImagesApi.fetch_external_image fs base u fetchO
      = ⟨.ok (b64encode ((fs.readFile ns fname).getD []), mt), []⟩ := by
  have hlocal : ImagesApi.try_serve_local fs u base
      = .ok (some ((fs.readFile ns fname).getD [], mt)) := by
    unfold ImagesApi.try_serve_local
    rw [if_neg (by simp [hhost]), hmatch]
    simp [hns, hid, hex]
  unfold ImagesApi.fetch_external_image
  rw [hlocal]

/-- Witness for C10: `http://localhost:8000/images/ns/id1` is rejected by
the URL guard, yet the fetch endpoint with base `http://localhost:8000/`
serves the stored image for it without any network fetch. -/
theorem fetch_serves_local_spec_witness :
    ImagesApi.validate_fetch_url
        ⟨"http", some (.name "localhost"), some 8000, "/images/ns/id1"⟩
      = .error ⟨400, "Invalid url"⟩
  ∧ ImagesApi.fetch_external_image ⟨["ns"], [("ns", "id1.jpg", pilEncode ⟨4, 3, .RGB⟩)]⟩
      ⟨"http", some (.name "localhost"), some 8000, "/"⟩
      ⟨"http", some (.name "localhost"), some 8000, "/images/ns/id1"⟩ (fun _ => none)
      = ⟨.ok (b64encode (pilEncode ⟨4, 3, .RGB⟩), "image/jpeg"), []⟩ := by
  constructor
  · decide
  · have h := fetch_serves_local_spec ⟨["ns"], [("ns", "id1.jpg", pilEncode ⟨4, 3, .RGB⟩)]⟩
      ⟨"http", some (.name "localhost"), some 8000, "/"⟩
      ⟨"http", some (.name "localhost"), some 8000, "/images/ns/id1"⟩ (fun _ => none)
      "ns" "id1" "id1.jpg" "image/jpeg" (by decide) (by decide) (by decide) (by decide)
      (by decide)
    rw [h]
    decide

end ImageService
